import Mathlib

/-!
Verification of the shipyard controller manager (controller/manager/manager.go)
against its natural-language specification.

The container-runtime client, the event sink and wall-clock time are external
collaborators; they are modelled as a `World` record of (pure) response
functions, one per consumed operation.  Each manager operation is translated
into a Lean function over a `World` that returns the ordered trace of runtime
calls it makes together with its Go return value (`Except` models
`(T, error)`).  Within one manager call the Go code never re-reads state it
mutated through the client, so a static response record is a faithful
point-in-time snapshot (the spec's §5 "read-compare-act against a
point-in-time snapshot").
-/

namespace dockerclient

/-- Host configuration is opaque to the manager code: it is only captured and
passed back to `start`.  One abstract field keeps distinct values distinct. -/
structure HostConfig where
  binding : Nat
deriving DecidableEq, Repr

/-- The fields of `dockerclient.ContainerConfig` the manager reads or writes:
`Image`, `Hostname`, `Memory`, and the embedded `HostConfig`. -/
structure ContainerConfig where
  Image : String
  Hostname : String
  Memory : Int
  HostConfig : HostConfig
deriving DecidableEq, Repr

/-- A listing entry (`dockerclient.Container`): the fields used are `Id` and
`Image`. -/
structure Container where
  Id : String
  Image : String
deriving DecidableEq, Repr

/-- An inspection result (`dockerclient.ContainerInfo`): the fields used are
`Id`, `Image`, `Args`, `Config` and `HostConfig`. -/
structure ContainerInfo where
  Id : String
  Image : String
  Args : List String
  Config : ContainerConfig
  HostConfig : HostConfig
deriving DecidableEq, Repr

end dockerclient

namespace shipyard

/-- `shipyard.Event` (event.go), the record saved to the event sink.  The Go
field `Type` is spelled `EventType` here (`Type` is reserved in Lean); the
`Container` field is never set by the manager functions modelled here. -/
structure Event where
  EventType : String
  Time : Int
  Message : String
  Tags : List String
deriving DecidableEq, Repr

end shipyard

/-- One call made against an external collaborator, in the order the Go code
issues them.  `runC` marks an invocation of the concurrent launcher
(`Manager.Run`) from `Scale`; its own inner calls are analysed separately. -/
inductive Call where
  | listC : Bool → Call
  | inspectC : String → Call
  | pullC : String → Call
  | killC : String → String → Call
  | removeC : String → Bool → Call
  | createC : dockerclient.ContainerConfig → Call
  | startC : String → dockerclient.HostConfig → Call
  | runC : dockerclient.ContainerConfig → Nat → Bool → Call
  | saveEventC : shipyard.Event → Call
deriving DecidableEq, Repr

/-- The external collaborators, as a record of responses: the runtime client
(`list`/`inspect`/`pull`/`kill`/`remove`/`create`/`start`), the event sink
(`saveEvent`), the launcher result seen by `Scale` (`runResult`), and the
clock (`now`, for `time.Now().Unix()`). -/
structure World where
  list : Bool → Except String (List dockerclient.Container)
  inspect : String → Except String dockerclient.ContainerInfo
  pull : String → Except String Unit
  kill : String → String → Except String Unit
  remove : String → Bool → Except String Unit
  create : dockerclient.ContainerConfig → Except String String
  start : String → dockerclient.HostConfig → Except String Unit
  saveEvent : shipyard.Event → Except String Unit
  runResult : dockerclient.ContainerConfig → Nat → Bool → Except String (List String)
  now : Int

/-- Go `strings.Index(s, sub) > -1`: `sub` occurs as a contiguous substring of
`s`. -/
def containsSubstring (sub s : String) : Bool :=
  decide (sub.data <:+: s.data)

/-- Go `strings.HasPrefix(s, pre)`. -/
def strHasPre (s pre : String) : Bool :=
  decide (pre.data <+: s.data)

namespace Manager

open dockerclient shipyard

/-- `Manager.Containers(all)`: `client.ListContainers(all, false, "")`. -/
def Containers (w : World) (all : Bool) :
    List Call × Except String (List dockerclient.Container) :=
  ([Call.listC all], w.list all)

/-- The loop of `Manager.Container`: return the inspection of the first listed
container whose identifier has `id` as a prefix; `(nil, nil)` when none
matches. -/
def containerLoop (w : World) (id : String) :
    List dockerclient.Container → List Call × Except String (Option ContainerInfo)
  | [] => ([], Except.ok none)
  | c :: rest =>
    if strHasPre c.Id id then
      match w.inspect c.Id with
      | Except.error e => ([Call.inspectC c.Id], Except.error e)
      | Except.ok info => ([Call.inspectC c.Id], Except.ok (some info))
    else containerLoop w id rest

/-- `Manager.Container(id)`: list all containers (`all = true`), then scan for
the first identifier with prefix `id`. -/
def Container (w : World) (id : String) :
    List Call × Except String (Option ContainerInfo) :=
  match w.list true with
  | Except.error e => ([Call.listC true], Except.error e)
  | Except.ok cs =>
    match containerLoop w id cs with
    | (tr, res) => (Call.listC true :: tr, res)

/-- The loop of `Manager.ContainersByImage`: inspect, in listing order, every
entry whose image contains `name`; the first inspection error aborts. -/
def byImageLoop (w : World) (name : String) :
    List dockerclient.Container → List Call × Except String (List ContainerInfo)
  | [] => ([], Except.ok [])
  | c :: rest =>
    if containsSubstring name c.Image then
      match w.inspect c.Id with
      | Except.error e => ([Call.inspectC c.Id], Except.error e)
      | Except.ok info =>
        match byImageLoop w name rest with
        | (tr, Except.error e) => (Call.inspectC c.Id :: tr, Except.error e)
        | (tr, Except.ok infos) =>
          (Call.inspectC c.Id :: tr, Except.ok (info :: infos))
    else byImageLoop w name rest

/-- `Manager.ContainersByImage(name, all)`. -/
def ContainersByImage (w : World) (name : String) (all : Bool) :
    List Call × Except String (List ContainerInfo) :=
  match w.list all with
  | Except.error e => ([Call.listC all], Except.error e)
  | Except.ok cs =>
    match byImageLoop w name cs with
    | (tr, res) => (Call.listC all :: tr, res)

/-- `Manager.IdenticalContainers(container, all)`: the containers whose image
contains `container.Image`, refined by equal memory limit and equal argument
count. -/
def IdenticalContainers (w : World) (container : ContainerInfo) (all : Bool) :
    List Call × Except String (List ContainerInfo) :=
  match ContainersByImage w container.Image all with
  | (tr, Except.error e) => (tr, Except.error e)
  | (tr, Except.ok cs) =>
    (tr, Except.ok (cs.filter fun c =>
       decide (c.Config.Memory = container.Config.Memory) &&
       decide (c.Args.length = container.Args.length)))

/-- The pairwise class-membership predicate realised by
`IdenticalContainers`: `b` is placed in `a`'s class iff `a`'s image occurs as
a substring of `b`'s image, the memory limits are equal and the argument
counts are equal (the substring test is `ContainersByImage`'s filter; the
other two are the refinement loop). -/
def sameClass (a b : ContainerInfo) : Bool :=
  containsSubstring a.Image b.Image &&
  decide (b.Config.Memory = a.Config.Memory) &&
  decide (b.Args.length = a.Args.length)

/-- `Manager.Destroy(id)`: kill with signal `"kill"`, and only if that
succeeds, remove with force; the first error is returned. -/
def Destroy (w : World) (id : String) : List Call × Except String Unit :=
  match w.kill id "kill" with
  | Except.error e => ([Call.killC id "kill"], Except.error e)
  | Except.ok _ =>
    match w.remove id true with
    | Except.error e =>
      ([Call.killC id "kill", Call.removeC id true], Except.error e)
    | Except.ok _ =>
      ([Call.killC id "kill", Call.removeC id true], Except.ok ())

/-- The `"deploy"` event `RedeployContainers` saves when at least one replica
was redeployed. -/
def deployEvent (w : World) (image : String) : shipyard.Event :=
  { EventType := "deploy", Time := w.now, Message := image ++ " deployed",
    Tags := ["deploy"] }

/-- The loop of `Manager.RedeployContainers`: for each listed container whose
image contains `image` — inspect it, pull `image` (the argument, not the
container's own image), destroy it ignoring the destroy error, create from the
captured config, start with the captured host config.  The first error of
inspect/pull/create/start returns immediately.  Returns (trace, deployed
flag, result). -/
def redeployLoop (w : World) (image : String) :
    List dockerclient.Container → Bool → List Call × Bool × Except String Unit
  | [], deployed => ([], deployed, Except.ok ())
  | c :: rest, deployed =>
    if containsSubstring image c.Image then
      match w.inspect c.Id with
      | Except.error e => ([Call.inspectC c.Id], deployed, Except.error e)
      | Except.ok info =>
        match w.pull image with
        | Except.error e =>
          ([Call.inspectC c.Id, Call.pullC image], deployed, Except.error e)
        | Except.ok _ =>
          match w.create info.Config with
          | Except.error e =>
            (Call.inspectC c.Id :: Call.pullC image :: (Destroy w c.Id).1 ++
               [Call.createC info.Config], deployed, Except.error e)
          | Except.ok cid =>
            match w.start cid info.HostConfig with
            | Except.error e =>
              (Call.inspectC c.Id :: Call.pullC image :: (Destroy w c.Id).1 ++
                 [Call.createC info.Config, Call.startC cid info.HostConfig],
               deployed, Except.error e)
            | Except.ok _ =>
              match redeployLoop w image rest true with
              | (tr, dep2, res) =>
                (Call.inspectC c.Id :: Call.pullC image :: (Destroy w c.Id).1 ++
                   [Call.createC info.Config,
                    Call.startC cid info.HostConfig] ++ tr,
                 dep2, res)
    else redeployLoop w image rest deployed

/-- `Manager.RedeployContainers(image)`: list running containers only
(`all = false`), run the redeploy loop, and save one aggregate `"deploy"`
event iff the loop finished without error with at least one deployment. -/
def RedeployContainers (w : World) (image : String) :
    List Call × Except String Unit :=
  match w.list false with
  | Except.error e => ([Call.listC false], Except.error e)
  | Except.ok cs =>
    match redeployLoop w image cs false with
    | (tr, _, Except.error e) => (Call.listC false :: tr, Except.error e)
    | (tr, deployed, Except.ok _) =>
      if deployed then
        match w.saveEvent (deployEvent w image) with
        | Except.error e =>
          (Call.listC false :: tr ++ [Call.saveEventC (deployEvent w image)],
           Except.error e)
        | Except.ok _ =>
          (Call.listC false :: tr ++ [Call.saveEventC (deployEvent w image)],
           Except.ok ())
      else (Call.listC false :: tr, Except.ok ())

/-- The scale-down loop of `Manager.Scale`: destroy each selected container in
order; the first destroy error aborts. -/
def scaleDownLoop (w : World) :
    List dockerclient.ContainerInfo → List Call × Except String Unit
  | [] => ([], Except.ok ())
  | c :: rest =>
    match Destroy w c.Id with
    | (dtr, Except.error e) => (dtr, Except.error e)
    | (dtr, Except.ok _) =>
      match scaleDownLoop w rest with
      | (tr, res) => (dtr ++ tr, res)

/-- `Manager.Scale(container, count)`: inspect the reference, compute its
class over all containers (`all = true`), then destroy the first
`current - count` members when over, or clear the reference hostname and
invoke the launcher for `count - current` replicas with `pull = false` when
under. -/
def Scale (w : World) (container : ContainerInfo) (count : Nat) :
    List Call × Except String Unit :=
  match w.inspect container.Id with
  | Except.error e => ([Call.inspectC container.Id], Except.error e)
  | Except.ok info =>
    match IdenticalContainers w info true with
    | (tr, Except.error e) =>
      (Call.inspectC container.Id :: tr, Except.error e)
    | (tr, Except.ok imageContainers) =>
      if count < imageContainers.length then
        match scaleDownLoop w
            (imageContainers.take (imageContainers.length - count)) with
        | (tr2, res2) => (Call.inspectC container.Id :: tr ++ tr2, res2)
      else if imageContainers.length < count then
        match w.runResult { container.Config with Hostname := "" }
            (count - imageContainers.length) false with
        | Except.error e =>
          (Call.inspectC container.Id :: tr ++
             [Call.runC { container.Config with Hostname := "" }
               (count - imageContainers.length) false],
           Except.error e)
        | Except.ok _ =>
          (Call.inspectC container.Id :: tr ++
             [Call.runC { container.Config with Hostname := "" }
               (count - imageContainers.length) false],
           Except.ok ())
      else (Call.inspectC container.Id :: tr, Except.ok ())

end Manager

/-- The outcome of one launch attempt inside `Manager.Run`'s goroutine body. -/
inductive AttemptResult where
  | ok : String → AttemptResult
  | fail : String → AttemptResult
deriving DecidableEq, Repr

/-- The body of one goroutine spawned by `Manager.Run`: optionally pull the
template image, create, start.  Any error makes the goroutine return
early — before `wg.Done()`. -/
def runAttempt (w : World) (config : dockerclient.ContainerConfig)
    (pull : Bool) : AttemptResult :=
  if pull then
    match w.pull config.Image with
    | Except.error e => AttemptResult.fail e
    | Except.ok _ =>
      match w.create config with
      | Except.error e => AttemptResult.fail e
      | Except.ok cid =>
        match w.start cid config.HostConfig with
        | Except.error e => AttemptResult.fail e
        | Except.ok _ => AttemptResult.ok cid
  else
    match w.create config with
    | Except.error e => AttemptResult.fail e
    | Except.ok cid =>
      match w.start cid config.HostConfig with
      | Except.error e => AttemptResult.fail e
      | Except.ok _ => AttemptResult.ok cid

/-- The outcomes of the `count` concurrent attempts of `Manager.Run`.  The
attempts run against the same client but at different times, so each attempt
`i` sees its own response snapshot `ws i`. -/
def runResults (ws : Nat → World) (config : dockerclient.ContainerConfig)
    (count : Nat) (pull : Bool) : List AttemptResult :=
  (List.range count).map fun i => runAttempt (ws i) config pull

/-- Whether an attempt reached the end of the goroutine body, where
`wg.Done()` is the final statement: only successful attempts signal the wait
group. -/
def signalsDone : AttemptResult → Bool
  | AttemptResult.ok _ => true
  | AttemptResult.fail _ => false

/-- The number of `wg.Done()` signals the batch produces: one per successful
attempt, none for a failed attempt (the failure paths `return` before
`wg.Done()`). -/
def doneSignals (results : List AttemptResult) : Nat :=
  (results.filter signalsDone).length

/-- The number of failed attempts in the batch. -/
def failCount (results : List AttemptResult) : Nat :=
  (results.filter fun r => !signalsDone r).length

/-- `sync.WaitGroup` semantics of `Manager.Run`: `wg.Add(count)` then
`wg.Wait()` — the wait (and hence the call) completes iff exactly `count`
`wg.Done()` signals arrive. -/
def RunTerminates (ws : Nat → World) (config : dockerclient.ContainerConfig)
    (count : Nat) (pull : Bool) : Bool :=
  doneSignals (runResults ws config count pull) == count

/-- Number of calls in a trace satisfying `p`. -/
def countCalls (p : Call → Bool) (tr : List Call) : Nat :=
  (tr.filter p).length

/-- Recognise an event-sink write. -/
def isSaveEvent : Call → Bool
  | Call.saveEventC _ => true
  | _ => false

/-- Number of event-sink writes in a trace. -/
def eventCount (tr : List Call) : Nat :=
  countCalls isSaveEvent tr

/-- Recognise a pull of exactly image `s`. -/
def isPullOf (s : String) : Call → Bool
  | Call.pullC t => t == s
  | _ => false

/-- Recognise a pull of any image other than `image`. -/
def isPullOther (image : String) : Call → Bool
  | Call.pullC t => !(t == image)
  | _ => false

/-- Recognise a listing call with `all = true`. -/
def isListAll : Call → Bool
  | Call.listC b => b
  | _ => false

/-- Recognise a create call. -/
def isCreate : Call → Bool
  | Call.createC _ => true
  | _ => false

/-- The identifiers passed to kill calls, in trace order (each `Destroy`
issues exactly one kill, so these are the destroy targets). -/
def killedIds (tr : List Call) : List String :=
  tr.filterMap fun c =>
    match c with
    | Call.killC id _ => some id
    | _ => none

/-- The trace of a sequence of successful `Destroy` calls. -/
def destroyTrace (l : List dockerclient.ContainerInfo) : List Call :=
  l.flatMap fun c => [Call.killC c.Id "kill", Call.removeC c.Id true]

/-- The call kinds `redeployLoop` may emit: inspect, pull of exactly the
argument image, kill/remove (from the ignored `Destroy`), create, start. -/
def redeployCallOK (image : String) : Call → Bool
  | Call.listC _ => false
  | Call.pullC s => s == image
  | Call.runC _ _ _ => false
  | Call.saveEventC _ => false
  | _ => true

/-- The call kinds `RedeployContainers` may emit: the single running-only
listing, the loop's calls, and the single aggregate deploy event. -/
def redeployTopOK (w : World) (image : String) (c : Call) : Bool :=
  (c == Call.listC false) || redeployCallOK image c ||
    (c == Call.saveEventC (Manager.deployEvent w image))

/-- The call kinds the class-computation (`byImageLoop`) may emit: inspects
only. -/
def isInspect : Call → Bool
  | Call.inspectC _ => true
  | _ => false

/-! ### Concrete inputs used by counterexamples and witnesses -/

/-- A sample host configuration. -/
def hc0 : dockerclient.HostConfig := ⟨0⟩

/-- A collaborator record where every operation succeeds, the container set
is empty, and inspection of an unknown identifier fails. -/
def okWorld : World where
  list := fun _ => Except.ok []
  inspect := fun _ => Except.error "no such container"
  pull := fun _ => Except.ok ()
  kill := fun _ _ => Except.ok ()
  remove := fun _ _ => Except.ok ()
  create := fun _ => Except.ok "n1"
  start := fun _ _ => Except.ok ()
  saveEvent := fun _ => Except.ok ()
  runResult := fun _ _ _ => Except.ok []
  now := 0

/-- A launch template for `Run`. -/
def cfgRun : dockerclient.ContainerConfig := ⟨"myapp:v1", "", 0, hc0⟩

/-- A world whose pull always fails (simulated registry fault). -/
def wPullBad : World :=
  { okWorld with pull := fun _ => Except.error "pull failed" }

/-- A per-attempt response family for `Run`: attempt 0 succeeds, every later
attempt hits the registry fault. -/
def famC1 : Nat → World := fun i => if i = 0 then okWorld else wPullBad

/-- Configuration of the replica of image `"myapp:v1"`. -/
def cfgC2 : dockerclient.ContainerConfig := ⟨"myapp:v1", "h1", 256, hc0⟩

/-- Inspection result for the replica `"c1"` of image `"myapp:v1"`. -/
def infoC2 : dockerclient.ContainerInfo := ⟨"c1", "myapp:v1", [], cfgC2, hc0⟩

/-- One running replica of image `"myapp:v1"`; every runtime operation
succeeds. -/
def wC2 : World :=
  { okWorld with
    list := fun _ => Except.ok [⟨"c1", "myapp:v1"⟩]
    inspect := fun id =>
      if id = "c1" then Except.ok infoC2 else Except.error "no such container" }

/-- A stopped replica of image `"myapp:v1"`: it appears in the `all = true`
listing but not in the running-only listing. -/
def wC3 : World :=
  { okWorld with
    list := fun all =>
      if all then Except.ok [⟨"s1", "myapp:v1"⟩] else Except.ok [] }

/-- Configuration shared by the two replicas of image `"app:1"`. -/
def cfgA : dockerclient.ContainerConfig := ⟨"app:1", "", 0, hc0⟩

/-- Inspection result for replica `"d1"`. -/
def infoA1 : dockerclient.ContainerInfo := ⟨"d1", "app:1", [], cfgA, hc0⟩

/-- Inspection result for replica `"d2"`. -/
def infoA2 : dockerclient.ContainerInfo := ⟨"d2", "app:1", [], cfgA, hc0⟩

/-- Two running replicas of image `"app:1"`; killing the first fails, every
other operation succeeds. -/
def wC4 : World :=
  { okWorld with
    list := fun _ => Except.ok [⟨"d1", "app:1"⟩, ⟨"d2", "app:1"⟩]
    inspect := fun id =>
      if id = "d1" then Except.ok infoA1
      else if id = "d2" then Except.ok infoA2
      else Except.error "no such container"
    kill := fun id _ =>
      if id = "d1" then Except.error "kill failed" else Except.ok () }

/-- Inspection result for replica `"e1"` of image `"app:2"`. -/
def infoE : dockerclient.ContainerInfo :=
  ⟨"e1", "app:2", [], ⟨"app:2", "", 0, hc0⟩, hc0⟩

/-- One running replica of image `"app:2"` whose pull fails. -/
def wPullAbort : World :=
  { okWorld with
    list := fun _ => Except.ok [⟨"e1", "app:2"⟩]
    inspect := fun id =>
      if id = "e1" then Except.ok infoE else Except.error "no such container"
    pull := fun _ => Except.error "nopull" }

/-- A world whose kill always fails. -/
def wC5 : World :=
  { okWorld with kill := fun _ _ => Except.error "kill boom" }

/-- A descriptor whose image reference is the bare name `"myapp"`. -/
def a6 : dockerclient.ContainerInfo :=
  ⟨"a1", "myapp", [], ⟨"myapp", "", 0, hc0⟩, hc0⟩

/-- A descriptor whose image reference is the tagged name `"myapp:v1"`, with
the same memory limit and argument count as `a6`. -/
def b6 : dockerclient.ContainerInfo :=
  ⟨"b1", "myapp:v1", [], ⟨"myapp:v1", "", 0, hc0⟩, hc0⟩

/-- The two descriptors `a6` and `b6` live. -/
def w6 : World :=
  { okWorld with
    list := fun _ => Except.ok [⟨"a1", "myapp"⟩, ⟨"b1", "myapp:v1"⟩]
    inspect := fun id =>
      if id = "a1" then Except.ok a6
      else if id = "b1" then Except.ok b6
      else Except.error "no such container" }

/-- Configuration shared by the three replicas of image `"web:1"`. -/
def cfgW : dockerclient.ContainerConfig := ⟨"web:1", "web-host", 128, hc0⟩

/-- Inspection result for replica `"w1"`. -/
def infoW1 : dockerclient.ContainerInfo := ⟨"w1", "web:1", [], cfgW, hc0⟩

/-- Inspection result for replica `"w2"`. -/
def infoW2 : dockerclient.ContainerInfo := ⟨"w2", "web:1", [], cfgW, hc0⟩

/-- Inspection result for replica `"w3"`. -/
def infoW3 : dockerclient.ContainerInfo := ⟨"w3", "web:1", [], cfgW, hc0⟩

/-- Three live replicas of image `"web:1"`; every operation succeeds. -/
def w7 : World :=
  { okWorld with
    list := fun _ =>
      Except.ok [⟨"w1", "web:1"⟩, ⟨"w2", "web:1"⟩, ⟨"w3", "web:1"⟩]
    inspect := fun id =>
      if id = "w1" then Except.ok infoW1
      else if id = "w2" then Except.ok infoW2
      else if id = "w3" then Except.ok infoW3
      else Except.error "no such container" }

/-- Two running replicas of image `"app:1"`; the second one's inspection
fails, every other operation succeeds — so the first replica is fully
redeployed before the call aborts. -/
def wC8 : World :=
  { okWorld with
    list := fun _ => Except.ok [⟨"d1", "app:1"⟩, ⟨"d2", "app:1"⟩]
    inspect := fun id =>
      if id = "d1" then Except.ok infoA1 else Except.error "gone" }

/-- One live replica of image `"web:1"` whose reference descriptor carries a
non-empty hostname. -/
def w9 : World :=
  { okWorld with
    list := fun _ => Except.ok [⟨"w1", "web:1"⟩]
    inspect := fun id =>
      if id = "w1" then Except.ok infoW1 else Except.error "no such container" }

/-- Inspection result for container `"cd2"`. -/
def infoCD : dockerclient.ContainerInfo :=
  ⟨"cd2", "z:1", [], ⟨"z:1", "", 0, hc0⟩, hc0⟩

/-- Two containers `"ab1"` and `"cd2"`. -/
def w10 : World :=
  { okWorld with
    list := fun _ => Except.ok [⟨"ab1", "x:1"⟩, ⟨"cd2", "z:1"⟩]
    inspect := fun id =>
      if id = "cd2" then Except.ok infoCD else Except.error "no such container" }

/-! ## Claim theorems and supporting lemmas -/

/-- C1: the source's `Run` signals its wait group only on the success path.
With one of two attempts failing, only one `wg.Done()` arrives against
`wg.Add(2)`, so `wg.Wait()` — and with it the call — never resolves, instead
of returning the one success and the one failure.  With zero failures the
wait resolves. -/
theorem C1_run_wait_never_resolves :
    failCount (runResults famC1 cfgRun 2 true) = 1 ∧
    RunTerminates famC1 cfgRun 2 true = false ∧
    RunTerminates (fun _ => okWorld) cfgRun 2 true = true := by
  exact ⟨rfl, rfl, rfl⟩

/-- C2 counterexample: redeploying with argument `"myapp"` against one
running replica of image `"myapp:v1"` pulls `"myapp"` (the caller-supplied
substring) once and never pulls the replica's exact image `"myapp:v1"`. -/
theorem C2_counterexample :
    countCalls (isPullOf "myapp:v1")
      (Manager.RedeployContainers wC2 "myapp").1 = 0 ∧
    countCalls (isPullOf "myapp")
      (Manager.RedeployContainers wC2 "myapp").1 = 1 ∧
    wC2.list false = Except.ok [⟨"c1", "myapp:v1"⟩] ∧
    wC2.inspect "c1" = Except.ok infoC2 ∧
    infoC2.Image = "myapp:v1" ∧
    (Manager.RedeployContainers wC2 "myapp").2 = Except.ok () := by
  exact ⟨rfl, rfl, rfl, rfl, rfl, rfl⟩

/-- C3 counterexample: a stopped replica of image `"myapp:v1"` is listed by
`all = true` and matches the substring `"myapp"`, yet `RedeployContainers`
(which lists with `all = false`) issues no call beyond the running-only
listing — the stopped replica is never considered. -/
theorem C3_counterexample :
    Manager.RedeployContainers wC3 "myapp" =
      ([Call.listC false], Except.ok ()) ∧
    wC3.list true = Except.ok [⟨"s1", "myapp:v1"⟩] ∧
    containsSubstring "myapp" "myapp:v1" = true := by
  exact ⟨rfl, rfl, by decide⟩

/-- C4 counterexample: with two matching running replicas where killing the
first fails, `Destroy` of the first returns an error, yet the redeploy call
ignores it, continues to the second replica (two creates occur) and returns
success — a destroy failure does not abort the call. -/
theorem C4_counterexample :
    (Manager.Destroy wC4 "d1").2 = Except.error "kill failed" ∧
    (Manager.RedeployContainers wC4 "app").2 = Except.ok () ∧
    countCalls isCreate (Manager.RedeployContainers wC4 "app").1 = 2 := by
  exact ⟨rfl, rfl, rfl⟩

/-- C5 counterexample: when the kill step fails, `Destroy` returns the kill
error without ever requesting removal — removal is not requested regardless
of the kill outcome. -/
theorem C5_counterexample :
    wC5.kill "z1" "kill" = Except.error "kill boom" ∧
    Manager.Destroy wC5 "z1" =
      ([Call.killC "z1" "kill"], Except.error "kill boom") ∧
    Call.removeC "z1" true ∉ (Manager.Destroy wC5 "z1").1 := by
  exact ⟨rfl, rfl, by decide⟩

/-- C6 counterexample: the image test realised by `ContainersByImage` is
substring containment, not equality — `b6` (image `"myapp:v1"`) is in the
class of `a6` (image `"myapp"`) although their images differ, while `a6` is
not in the class of `b6`: membership is not symmetric and does not require
equal image references. -/
theorem C6_counterexample :
    Manager.sameClass a6 b6 = true ∧
    Manager.sameClass b6 a6 = false ∧
    a6.Image ≠ b6.Image ∧
    a6.Config.Memory = b6.Config.Memory ∧
    a6.Args.length = b6.Args.length ∧
    (Manager.IdenticalContainers w6 a6 true).2 = Except.ok [a6, b6] ∧
    (Manager.IdenticalContainers w6 b6 true).2 = Except.ok [b6] := by
  exact ⟨by decide, by decide, by decide, rfl, rfl, rfl, rfl⟩

/-- C8 counterexample: the first replica is fully redeployed (its start call
is in the trace), then the second replica's inspection aborts the call with
an error — and no event at all is saved, although the claim requires the
aggregate event to be emitted even when the call later aborts. -/
theorem C8_counterexample :
    (Manager.RedeployContainers wC8 "app").2 = Except.error "gone" ∧
    eventCount (Manager.RedeployContainers wC8 "app").1 = 0 ∧
    Call.startC "n1" hc0 ∈ (Manager.RedeployContainers wC8 "app").1 := by
  exact ⟨rfl, rfl, by decide⟩

theorem countCalls_nil (p : Call → Bool) : countCalls p [] = 0 := rfl

theorem countCalls_cons (p : Call → Bool) (c : Call) (tr : List Call) :
    countCalls p (c :: tr) = (if p c then 1 else 0) + countCalls p tr := by
  by_cases h : p c <;>
    simp [countCalls, List.filter_cons, h, Nat.add_comm]

theorem countCalls_append (p : Call → Bool) (t1 t2 : List Call) :
    countCalls p (t1 ++ t2) = countCalls p t1 + countCalls p t2 := by
  simp [countCalls, List.filter_append]

theorem countCalls_eq_zero {p : Call → Bool} {tr : List Call}
    (h : ∀ c ∈ tr, p c = false) : countCalls p tr = 0 := by
  unfold countCalls
  rw [List.length_eq_zero, List.filter_eq_nil_iff]
  intro a ha
  simp [h a ha]

theorem destroy_trace_calls (w : World) (id : String) (image : String) :
    ∀ c ∈ (Manager.Destroy w id).1, redeployCallOK image c = true := by
  unfold Manager.Destroy
  rcases hk : w.kill id "kill" with e | u
  · simp [redeployCallOK]
  · rcases hr : w.remove id true with e | u <;>
      simp [redeployCallOK]

theorem redeployLoop_calls (w : World) (image : String) :
    ∀ (cs : List dockerclient.Container) (dep : Bool),
      ∀ c ∈ (Manager.redeployLoop w image cs dep).1,
        redeployCallOK image c = true := by
  intro cs
  induction cs with
  | nil => intro dep c hc; simp [Manager.redeployLoop] at hc
  | cons hd rest ih =>
    intro dep
    unfold Manager.redeployLoop
    split
    · split
      · simp [redeployCallOK]
      · split
        · simp [redeployCallOK]
        · split
          · intro c hc
            simp only [List.mem_cons, List.mem_append, List.mem_nil_iff,
              or_false] at hc
            rcases hc with (rfl | rfl | hc) | rfl
            · rfl
            · simp [redeployCallOK]
            · exact destroy_trace_calls w hd.Id image c hc
            · rfl
          · split
            · intro c hc
              simp only [List.mem_cons, List.mem_append, List.mem_nil_iff,
                or_false] at hc
              rcases hc with (rfl | rfl | hc) | rfl | rfl
              · rfl
              · simp [redeployCallOK]
              · exact destroy_trace_calls w hd.Id image c hc
              · rfl
              · rfl
            · split
              rename_i tr dep2 res heq
              have hrest := ih true
              rw [heq] at hrest
              intro c hc
              simp only [List.mem_cons, List.mem_append, List.mem_nil_iff,
                or_false] at hc
              rcases hc with ((rfl | rfl | hc) | rfl | rfl) | hc
              · rfl
              · simp [redeployCallOK]
              · exact destroy_trace_calls w hd.Id image c hc
              · rfl
              · rfl
              · exact hrest c hc
    · exact ih dep

theorem redeploy_calls (w : World) (image : String) :
    ∀ c ∈ (Manager.RedeployContainers w image).1,
      redeployTopOK w image c = true := by
  unfold Manager.RedeployContainers
  split
  · simp [redeployTopOK]
  · rename_i cs hl
    have hloop := redeployLoop_calls w image cs false
    have hcall : ∀ c ∈ (Manager.redeployLoop w image cs false).1,
        redeployTopOK w image c = true := by
      intro c hc
      simp [redeployTopOK, hloop c hc]
    split
    · rename_i tr dep e heq
      rw [heq] at hcall
      have hcall2 : ∀ c ∈ tr, redeployTopOK w image c = true := hcall
      intro c hc
      simp only [List.mem_cons] at hc
      rcases hc with rfl | hc
      · simp [redeployTopOK]
      · exact hcall2 c hc
    · rename_i tr dep u heq
      rw [heq] at hcall
      have hcall2 : ∀ c ∈ tr, redeployTopOK w image c = true := hcall
      split
      · split <;>
          · intro c hc
            simp only [List.mem_cons, List.mem_append, List.mem_nil_iff,
              or_false] at hc
            rcases hc with (rfl | hc) | rfl
            · simp [redeployTopOK]
            · exact hcall2 c hc
            · simp [redeployTopOK]
      · intro c hc
        simp only [List.mem_cons] at hc
        rcases hc with rfl | hc
        · simp [redeployTopOK]
        · exact hcall2 c hc

theorem destroy_no_pull (w : World) (id s : String) :
    countCalls (isPullOf s) (Manager.Destroy w id).1 = 0 := by
  unfold Manager.Destroy
  rcases w.kill id "kill" with e | u
  · rfl
  · rcases w.remove id true with e | u <;> rfl

/-- C2 (amended): redeploy pulls the caller-supplied image name, not the
replica's own exact image reference — every pull issued by
`RedeployContainers` is of exactly the argument string, and when every
matched replica's steps succeed the loop pulls it once per matched
replica. -/
theorem C2_redeploy_pulls_caller_image :
    (∀ (w : World) (image : String),
      countCalls (isPullOther image)
        (Manager.RedeployContainers w image).1 = 0) ∧
    (∀ (w : World) (image : String) (cs : List dockerclient.Container),
      w.pull image = Except.ok () →
      (∀ c ∈ cs, containsSubstring image c.Image = true →
        ∃ info, w.inspect c.Id = Except.ok info ∧
          ∃ cid, w.create info.Config = Except.ok cid ∧
            w.start cid info.HostConfig = Except.ok ()) →
      ∀ dep,
        countCalls (isPullOf image) (Manager.redeployLoop w image cs dep).1 =
          cs.countP (fun c => containsSubstring image c.Image)) := by
  constructor
  · intro w image
    apply countCalls_eq_zero
    intro c hc
    have h := redeploy_calls w image c hc
    cases c <;>
      simp [redeployTopOK, redeployCallOK, isPullOther] at h ⊢ <;>
      simp [h]
  · intro w image cs
    induction cs with
    | nil => intro hp hmatch dep; rfl
    | cons hd rest ih =>
      intro hp hmatch dep
      by_cases hm : containsSubstring image hd.Image
      · obtain ⟨info, hi, cid, hcr, hs⟩ :=
          hmatch hd (List.mem_cons_self hd rest) hm
        unfold Manager.redeployLoop
        rw [if_pos hm]
        rcases hrl : Manager.redeployLoop w image rest true with ⟨tr, dep2, res⟩
        simp only [hi, hp, hcr, hs, hrl]
        have ihr := ih hp
          (fun c hc hmc => hmatch c (List.mem_cons_of_mem hd hc) hmc) true
        rw [hrl] at ihr
        simp only [countCalls_append, countCalls_cons, countCalls_nil,
          destroy_no_pull, List.countP_cons]
        simp only [isPullOf, hm, beq_self_eq_true, if_true]
        rw [ihr]
        simp [isPullOf]
        omega
      · unfold Manager.redeployLoop
        rw [if_neg hm]
        have ihr := ih hp
          (fun c hc hmc => hmatch c (List.mem_cons_of_mem hd hc) hmc) dep
        rw [ihr, List.countP_cons]
        simp [hm]

/-- C2 witness: at the concrete one-replica world, the loop pulls the
argument image exactly once — once per matched replica. -/
theorem C2_redeploy_pulls_caller_image_witness :
    countCalls (isPullOf "myapp")
      (Manager.redeployLoop wC2 "myapp" [⟨"c1", "myapp:v1"⟩] false).1 =
      List.countP (fun c => containsSubstring "myapp" c.Image)
        [(⟨"c1", "myapp:v1"⟩ : dockerclient.Container)] := by
  apply C2_redeploy_pulls_caller_image.2 wC2 "myapp"
    [⟨"c1", "myapp:v1"⟩] rfl
  intro c hc hm
  have hc2 : c = (⟨"c1", "myapp:v1"⟩ : dockerclient.Container) := by
    simpa using hc
  subst hc2
  exact ⟨infoC2, rfl, "n1", rfl, rfl⟩

/-- C3 (amended): `RedeployContainers` selects its candidates from the
running-only listing: the one listing call it makes is with `all = false`,
and it never lists with `all = true` — non-running replicas are not
considered. -/
theorem C3_redeploy_considers_running_only :
    ∀ (w : World) (image : String),
      (Manager.RedeployContainers w image).1.head? =
        some (Call.listC false) ∧
      countCalls isListAll (Manager.RedeployContainers w image).1 = 0 := by
  intro w image
  constructor
  · unfold Manager.RedeployContainers
    split
    · rfl
    · split
      · simp
      · split
        · split <;> simp [List.cons_append]
        · simp
  · apply countCalls_eq_zero
    intro c hc
    have h := redeploy_calls w image c hc
    cases c <;>
      simp [redeployTopOK, redeployCallOK, isListAll] at h ⊢ <;>
      simp [h]

/-- C8 (amended): the redeploy loop itself never writes to the event sink;
`RedeployContainers` saves exactly one aggregate `"deploy"` event naming the
image, and only when the whole loop finished without error with at least one
replica redeployed — when the call aborts with an error no event is saved,
even if replicas had already been redeployed. -/
theorem C8_event_iff_loop_succeeds :
    (∀ (w : World) (image : String) (cs : List dockerclient.Container)
       (dep : Bool),
      eventCount (Manager.redeployLoop w image cs dep).1 = 0) ∧
    (∀ (w : World) (image : String) (cs : List dockerclient.Container)
       (tr : List Call) (dep : Bool) (e : String),
      w.list false = Except.ok cs →
      Manager.redeployLoop w image cs false = (tr, dep, Except.error e) →
      eventCount (Manager.RedeployContainers w image).1 = 0) ∧
    (∀ (w : World) (image : String) (cs : List dockerclient.Container)
       (tr : List Call),
      w.list false = Except.ok cs →
      Manager.redeployLoop w image cs false = (tr, true, Except.ok ()) →
      (Manager.RedeployContainers w image).1 =
        Call.listC false :: tr ++
          [Call.saveEventC (Manager.deployEvent w image)] ∧
      eventCount (Manager.RedeployContainers w image).1 = 1) ∧
    (∀ (w : World) (image : String) (cs : List dockerclient.Container)
       (tr : List Call),
      w.list false = Except.ok cs →
      Manager.redeployLoop w image cs false = (tr, false, Except.ok ()) →
      eventCount (Manager.RedeployContainers w image).1 = 0) := by
  have hloop0 : ∀ (w : World) (image : String)
      (cs : List dockerclient.Container) (dep : Bool),
      eventCount (Manager.redeployLoop w image cs dep).1 = 0 := by
    intro w image cs dep
    apply countCalls_eq_zero
    intro c hc
    have h := redeployLoop_calls w image cs dep c hc
    cases c <;> simp [redeployCallOK, isSaveEvent] at h ⊢
  refine ⟨hloop0, ?_, ?_, ?_⟩
  · intro w image cs tr dep e hl heq
    unfold Manager.RedeployContainers
    rw [hl]
    simp only [heq]
    have h0 := hloop0 w image cs false
    rw [heq] at h0
    simp only [eventCount, countCalls_cons, isSaveEvent] at h0 ⊢
    simpa using h0
  · intro w image cs tr hl heq
    have h0 := hloop0 w image cs false
    rw [heq] at h0
    have htr : (Manager.RedeployContainers w image).1 =
        Call.listC false :: tr ++
          [Call.saveEventC (Manager.deployEvent w image)] := by
      unfold Manager.RedeployContainers
      rw [hl]
      simp only [heq]
      rcases w.saveEvent (Manager.deployEvent w image) with e | u <;> simp
    refine ⟨htr, ?_⟩
    rw [htr]
    have : eventCount (Call.listC false :: tr ++
        [Call.saveEventC (Manager.deployEvent w image)]) =
        eventCount (Call.listC false :: tr) +
          eventCount [Call.saveEventC (Manager.deployEvent w image)] :=
      countCalls_append isSaveEvent _ _
    rw [this]
    simp only [eventCount, countCalls_cons, countCalls_nil,
      isSaveEvent] at h0 ⊢
    simp at h0 ⊢
    omega
  · intro w image cs tr hl heq
    unfold Manager.RedeployContainers
    rw [hl]
    simp only [heq]
    have h0 := hloop0 w image cs false
    rw [heq] at h0
    simp only [eventCount, countCalls_cons, isSaveEvent] at h0 ⊢
    simpa using h0

/-- C8 witness: at the concrete one-replica world the loop succeeds with a
deployment, and exactly one event is saved. -/
theorem C8_event_iff_loop_succeeds_witness :
    eventCount (Manager.RedeployContainers wC2 "myapp").1 = 1 :=
  (C8_event_iff_loop_succeeds.2.2.1 wC2 "myapp" [⟨"c1", "myapp:v1"⟩]
    (Manager.redeployLoop wC2 "myapp" [⟨"c1", "myapp:v1"⟩] false).1
    rfl rfl).2

/-- C5 (amended): `Destroy` requests removal (with force) only when the kill
step succeeded; when kill fails its error is returned and removal is never
requested; when kill succeeds and removal fails that error is surfaced; the
call reports success exactly when both steps succeed. -/
theorem C5_destroy_kill_gates_removal :
    ∀ (w : World) (id : String),
      (∀ e, w.kill id "kill" = Except.error e →
        Manager.Destroy w id = ([Call.killC id "kill"], Except.error e)) ∧
      (∀ e, w.kill id "kill" = Except.ok () →
        w.remove id true = Except.error e →
        Manager.Destroy w id =
          ([Call.killC id "kill", Call.removeC id true], Except.error e)) ∧
      (w.kill id "kill" = Except.ok () → w.remove id true = Except.ok () →
        Manager.Destroy w id =
          ([Call.killC id "kill", Call.removeC id true], Except.ok ())) := by
  intro w id
  refine ⟨?_, ?_, ?_⟩
  · intro e hk
    simp only [Manager.Destroy, hk]
  · intro e hk hr
    simp only [Manager.Destroy, hk, hr]
  · intro hk hr
    simp only [Manager.Destroy, hk, hr]

/-- C5 witness: at a world where both steps succeed, `Destroy` issues kill
then forced removal and reports success. -/
theorem C5_destroy_kill_gates_removal_witness :
    Manager.Destroy okWorld "q1" =
      ([Call.killC "q1" "kill", Call.removeC "q1" true], Except.ok ()) :=
  (C5_destroy_kill_gates_removal okWorld "q1").2.2 rfl rfl

/-- C6 (amended): membership in a reference descriptor's class is reflexive;
it holds iff the reference's image occurs as a substring of the candidate's
image with equal memory limits and argument counts (so it is not symmetric
in general); descriptors differing only in identifier or hostname are in each
other's class, and descriptors with different memory limits are not; every
descriptor `IdenticalContainers` returns matches the reference's memory limit
and argument count. -/
theorem C6_class_membership_structure :
    (∀ a : dockerclient.ContainerInfo, Manager.sameClass a a = true) ∧
    (∀ a b : dockerclient.ContainerInfo, a.Image = b.Image →
      a.Args.length = b.Args.length → a.Config.Memory = b.Config.Memory →
      Manager.sameClass a b = true ∧ Manager.sameClass b a = true) ∧
    (∀ a b : dockerclient.ContainerInfo, a.Config.Memory ≠ b.Config.Memory →
      Manager.sameClass a b = false) ∧
    (∀ a b : dockerclient.ContainerInfo,
      Manager.sameClass a b = true ↔
        (containsSubstring a.Image b.Image = true ∧
         b.Config.Memory = a.Config.Memory ∧
         b.Args.length = a.Args.length)) ∧
    (∀ (w : World) (a : dockerclient.ContainerInfo) (all : Bool)
       (l : List dockerclient.ContainerInfo),
      (Manager.IdenticalContainers w a all).2 = Except.ok l →
      ∀ c ∈ l, c.Config.Memory = a.Config.Memory ∧
        c.Args.length = a.Args.length) := by
  refine ⟨?_, ?_, ?_, ?_, ?_⟩
  · intro a
    simp [Manager.sameClass, containsSubstring, List.infix_refl]
  · intro a b h1 h2 h3
    constructor <;>
      simp [Manager.sameClass, containsSubstring, h1, h2, h3,
        List.infix_refl]
  · intro a b h
    have hm : (decide (b.Config.Memory = a.Config.Memory)) = false :=
      decide_eq_false fun h2 => h h2.symm
    simp [Manager.sameClass, hm]
  · intro a b
    simp [Manager.sameClass, Bool.and_eq_true, decide_eq_true_eq, and_assoc]
  · intro w a all l hl c hc
    unfold Manager.IdenticalContainers at hl
    rcases hcb : Manager.ContainersByImage w a.Image all with ⟨tr, res⟩
    rw [hcb] at hl
    rcases res with e | cs
    · simp at hl
    · simp only [Except.ok.injEq] at hl
      subst hl
      have := List.of_mem_filter hc
      simp only [Bool.and_eq_true, decide_eq_true_eq] at this
      exact this

/-- C6 witness: two descriptors equal except for their identifiers are in
each other's class, and descriptors with different memory limits are not. -/
theorem C6_class_membership_structure_witness :
    Manager.sameClass infoW1 infoW2 = true ∧
    Manager.sameClass a6 infoW1 = false := by
  constructor
  · exact (C6_class_membership_structure.2.1 infoW1 infoW2 rfl rfl rfl).1
  · exact C6_class_membership_structure.2.2.1 a6 infoW1 (by decide)

/-- C4 (amended): during redeploy, a failure of configuration capture
(inspect), pull, create, or start aborts the entire call immediately with
that error and no later-listed replica is touched; a destroy failure, by
contrast, is ignored (see the counterexample).  The first four parts give
the exact aborted trace at the failing replica, the fifth shows the loop
never continues past an error, and the sixth lifts a loop error to the whole
call. -/
theorem C4_fail_fast_except_destroy :
    (∀ (w : World) (image : String) (c : dockerclient.Container)
       (rest : List dockerclient.Container) (dep : Bool) (e : String),
      containsSubstring image c.Image = true →
      w.inspect c.Id = Except.error e →
      Manager.redeployLoop w image (c :: rest) dep =
        ([Call.inspectC c.Id], dep, Except.error e)) ∧
    (∀ (w : World) (image : String) (c : dockerclient.Container)
       (rest : List dockerclient.Container) (dep : Bool) (e : String)
       (info : dockerclient.ContainerInfo),
      containsSubstring image c.Image = true →
      w.inspect c.Id = Except.ok info →
      w.pull image = Except.error e →
      Manager.redeployLoop w image (c :: rest) dep =
        ([Call.inspectC c.Id, Call.pullC image], dep, Except.error e)) ∧
    (∀ (w : World) (image : String) (c : dockerclient.Container)
       (rest : List dockerclient.Container) (dep : Bool) (e : String)
       (info : dockerclient.ContainerInfo),
      containsSubstring image c.Image = true →
      w.inspect c.Id = Except.ok info →
      w.pull image = Except.ok () →
      w.create info.Config = Except.error e →
      Manager.redeployLoop w image (c :: rest) dep =
        (Call.inspectC c.Id :: Call.pullC image :: (Manager.Destroy w c.Id).1
           ++ [Call.createC info.Config], dep, Except.error e)) ∧
    (∀ (w : World) (image : String) (c : dockerclient.Container)
       (rest : List dockerclient.Container) (dep : Bool) (e : String)
       (info : dockerclient.ContainerInfo) (cid : String),
      containsSubstring image c.Image = true →
      w.inspect c.Id = Except.ok info →
      w.pull image = Except.ok () →
      w.create info.Config = Except.ok cid →
      w.start cid info.HostConfig = Except.error e →
      Manager.redeployLoop w image (c :: rest) dep =
        (Call.inspectC c.Id :: Call.pullC image :: (Manager.Destroy w c.Id).1
           ++ [Call.createC info.Config, Call.startC cid info.HostConfig],
         dep, Except.error e)) ∧
    (∀ (w : World) (image : String) (done rest : List dockerclient.Container)
       (dep dep1 : Bool) (tr1 : List Call) (e : String),
      Manager.redeployLoop w image done dep = (tr1, dep1, Except.error e) →
      Manager.redeployLoop w image (done ++ rest) dep =
        (tr1, dep1, Except.error e)) ∧
    (∀ (w : World) (image : String) (cs : List dockerclient.Container)
       (tr : List Call) (dep : Bool) (e : String),
      w.list false = Except.ok cs →
      Manager.redeployLoop w image cs false = (tr, dep, Except.error e) →
      Manager.RedeployContainers w image =
        (Call.listC false :: tr, Except.error e)) := by
  refine ⟨?_, ?_, ?_, ?_, ?_, ?_⟩
  · intro w image c rest dep e hm hi
    unfold Manager.redeployLoop
    rw [if_pos hm]
    simp only [hi]
  · intro w image c rest dep e info hm hi hp
    unfold Manager.redeployLoop
    rw [if_pos hm]
    simp only [hi, hp]
  · intro w image c rest dep e info hm hi hp hcr
    unfold Manager.redeployLoop
    rw [if_pos hm]
    simp only [hi, hp, hcr]
  · intro w image c rest dep e info cid hm hi hp hcr hs
    unfold Manager.redeployLoop
    rw [if_pos hm]
    simp only [hi, hp, hcr, hs]
  · intro w image done rest
    induction done with
    | nil =>
      intro dep dep1 tr1 e h
      simp [Manager.redeployLoop] at h
    | cons hd tl ih =>
      intro dep dep1 tr1 e h
      rw [List.cons_append]
      by_cases hm : containsSubstring image hd.Image
      · unfold Manager.redeployLoop at h ⊢
        rw [if_pos hm] at h ⊢
        rcases hi : w.inspect hd.Id with e2 | info
        · simp only [hi] at h ⊢
          exact h
        · simp only [hi] at h ⊢
          rcases hp : w.pull image with e2 | u
          · simp only [hp] at h ⊢
            exact h
          · simp only [hp] at h ⊢
            rcases hcr : w.create info.Config with e2 | cid
            · simp only [hcr] at h ⊢
              exact h
            · simp only [hcr] at h ⊢
              rcases hs : w.start cid info.HostConfig with e2 | u2
              · simp only [hs] at h ⊢
                exact h
              · simp only [hs] at h ⊢
                rcases hrl : Manager.redeployLoop w image tl true
                  with ⟨tr2, dep2, res2⟩
                rw [hrl] at h
                simp only [Prod.mk.injEq] at h
                obtain ⟨h1, h2, h3⟩ := h
                have hstep := ih true dep2 tr2 e (by rw [hrl, h3])
                rw [hstep]
                simp [← h1, h2]
      · unfold Manager.redeployLoop at h ⊢
        rw [if_neg hm] at h ⊢
        exact ih dep dep1 tr1 e h
  · intro w image cs tr dep e hl heq
    unfold Manager.RedeployContainers
    rw [hl]
    simp only [heq]

/-- C4 witness: at a concrete world with one matched replica whose pull
fails, the loop aborts at the pull with that error. -/
theorem C4_fail_fast_except_destroy_witness :
    Manager.redeployLoop wPullAbort "app" [⟨"e1", "app:2"⟩] false =
      ([Call.inspectC "e1", Call.pullC "app"], false, Except.error "nopull") :=
  C4_fail_fast_except_destroy.2.1 wPullAbort "app" ⟨"e1", "app:2"⟩ [] false
    "nopull" infoE (by decide) rfl rfl

theorem killedIds_append (t1 t2 : List Call) :
    killedIds (t1 ++ t2) = killedIds t1 ++ killedIds t2 :=
  List.filterMap_append t1 t2 _

theorem killedIds_destroyTrace :
    ∀ l : List dockerclient.ContainerInfo,
      killedIds (destroyTrace l) = l.map (fun c => c.Id) := by
  intro l
  induction l with
  | nil => rfl
  | cons c tl ih =>
    simp only [destroyTrace, List.flatMap_cons] at ih ⊢
    rw [killedIds_append]
    rw [ih]
    rfl

theorem byImageLoop_inspects (w : World) (name : String) :
    ∀ cs, ∀ c ∈ (Manager.byImageLoop w name cs).1, isInspect c = true := by
  intro cs
  induction cs with
  | nil => intro c hc; simp [Manager.byImageLoop] at hc
  | cons hd tl ih =>
    unfold Manager.byImageLoop
    split
    · split
      · intro c hc
        simp only [List.mem_singleton] at hc
        subst hc
        rfl
      · split
        · rename_i tr e heq
          intro c hc
          simp only [List.mem_cons] at hc
          rcases hc with rfl | hc
          · rfl
          · have := ih c
            rw [heq] at this
            exact this hc
        · rename_i tr infos heq
          intro c hc
          simp only [List.mem_cons] at hc
          rcases hc with rfl | hc
          · rfl
          · have := ih c
            rw [heq] at this
            exact this hc
    · exact ih

theorem killedIds_of_inspects {tr : List Call}
    (h : ∀ c ∈ tr, isInspect c = true) : killedIds tr = [] := by
  unfold killedIds
  rw [List.filterMap_eq_nil_iff]
  intro c hc
  have := h c hc
  cases c <;> simp [isInspect] at this ⊢

theorem killedIds_byImage (w : World) (name : String) (all : Bool) :
    killedIds (Manager.ContainersByImage w name all).1 = [] := by
  unfold Manager.ContainersByImage
  split
  · rfl
  · rename_i cs hl
    split
    rename_i tr res heq
    have hins := byImageLoop_inspects w name cs
    rw [heq] at hins
    simp only [killedIds, List.filterMap_cons]
    exact killedIds_of_inspects hins

theorem killedIds_identical (w : World) (info : dockerclient.ContainerInfo)
    (all : Bool) :
    killedIds (Manager.IdenticalContainers w info all).1 = [] := by
  unfold Manager.IdenticalContainers
  have hb := killedIds_byImage w info.Image all
  split
  · rename_i tr e heq
    rw [heq] at hb
    exact hb
  · rename_i tr cs heq
    rw [heq] at hb
    exact hb

theorem identical_calls (w : World) (info : dockerclient.ContainerInfo)
    (all : Bool) :
    ∀ c ∈ (Manager.IdenticalContainers w info all).1,
      (isInspect c || c == Call.listC all) = true := by
  have hcb : ∀ c ∈ (Manager.ContainersByImage w info.Image all).1,
      (isInspect c || c == Call.listC all) = true := by
    unfold Manager.ContainersByImage
    split
    · intro c hc
      simp only [List.mem_singleton] at hc
      subst hc
      simp [isInspect]
    · rename_i cs hl
      split
      rename_i tr res heq
      have hins := byImageLoop_inspects w info.Image cs
      rw [heq] at hins
      intro c hc
      simp only [List.mem_cons] at hc
      rcases hc with rfl | hc
      · simp [isInspect]
      · simp [hins c hc]
  unfold Manager.IdenticalContainers
  split
  · rename_i tr e heq
    rw [heq] at hcb
    exact hcb
  · rename_i tr cs heq
    rw [heq] at hcb
    exact hcb

theorem scaleDownLoop_ok (w : World) :
    ∀ l : List dockerclient.ContainerInfo,
      (∀ c ∈ l, w.kill c.Id "kill" = Except.ok () ∧
        w.remove c.Id true = Except.ok ()) →
      Manager.scaleDownLoop w l = (destroyTrace l, Except.ok ()) := by
  intro l
  induction l with
  | nil => intro h; rfl
  | cons c tl ih =>
    intro h
    obtain ⟨hk, hr⟩ := h c (List.mem_cons_self c tl)
    have hd : Manager.Destroy w c.Id =
        ([Call.killC c.Id "kill", Call.removeC c.Id true], Except.ok ()) := by
      simp only [Manager.Destroy, hk, hr]
    unfold Manager.scaleDownLoop
    rw [hd, ih fun x hx => h x (List.mem_cons_of_mem c hx)]
    simp [destroyTrace]

theorem scaleDownLoop_abort (w : World) :
    ∀ (done : List dockerclient.ContainerInfo)
      (c : dockerclient.ContainerInfo)
      (rest : List dockerclient.ContainerInfo) (dtr : List Call) (e : String),
      (∀ x ∈ done, w.kill x.Id "kill" = Except.ok () ∧
        w.remove x.Id true = Except.ok ()) →
      Manager.Destroy w c.Id = (dtr, Except.error e) →
      Manager.scaleDownLoop w (done ++ c :: rest) =
        (destroyTrace done ++ dtr, Except.error e) := by
  intro done
  induction done with
  | nil =>
    intro c rest dtr e hdone hc
    rw [List.nil_append]
    unfold Manager.scaleDownLoop
    rw [hc]
    simp [destroyTrace]
  | cons a tl ih =>
    intro c rest dtr e hdone hc
    obtain ⟨hk, hr⟩ := hdone a (List.mem_cons_self a tl)
    have hda : Manager.Destroy w a.Id =
        ([Call.killC a.Id "kill", Call.removeC a.Id true], Except.ok ()) := by
      simp only [Manager.Destroy, hk, hr]
    rw [List.cons_append]
    unfold Manager.scaleDownLoop
    rw [hda,
      ih c rest dtr e (fun x hx => hdone x (List.mem_cons_of_mem a hx)) hc]
    simp [destroyTrace]

theorem filter_not_mem_take_map {α β : Type} [BEq β] [LawfulBEq β]
    (f : α → β) :
    ∀ (l : List α) (k : Nat), (l.map f).Nodup →
      l.filter (fun c => !((l.take k).map f).contains (f c)) = l.drop k := by
  intro l
  induction l with
  | nil => intro k h; simp
  | cons a tl ih =>
    intro k h
    have hcons : f a ∉ tl.map f ∧ (tl.map f).Nodup := by
      rw [List.map_cons, List.nodup_cons] at h
      exact h
    cases k with
    | zero => simp
    | succ k =>
      simp only [List.take_succ_cons, List.map_cons, List.drop_succ_cons]
      rw [List.filter_cons]
      have hpa : (!((f a :: (tl.take k).map f).contains (f a))) = false := by
        simp [List.contains_cons]
      rw [hpa]
      simp only [Bool.false_eq_true, if_false]
      have hcong : tl.filter
            (fun c => !((f a :: (tl.take k).map f).contains (f c))) =
          tl.filter (fun c => !(((tl.take k).map f).contains (f c))) := by
        apply List.filter_congr
        intro c hc
        have hne : (f c == f a) = false := by
          rw [beq_eq_false_iff_ne]
          intro hfc
          exact hcons.1 (hfc ▸ List.mem_map_of_mem f hc)
        simp [List.contains_cons, hne]
      rw [hcong, ih k hcons.2]

/-- C7: when the class computed from the reference exceeds the desired
count, `Scale` destroys exactly the first `current - count` class members in
runtime-listing order and the surviving class members number exactly `count`
(part 1); a destroy failure aborts the scale-down with that error, with the
already-destroyed members untouched by any further call (part 2); and the
loop error becomes the return value of `Scale` itself (part 3). -/
theorem C7_scale_down_first_members :
    (∀ (w : World) (container info : dockerclient.ContainerInfo)
       (count : Nat) (tr : List Call) (cs : List dockerclient.ContainerInfo),
      w.inspect container.Id = Except.ok info →
      Manager.IdenticalContainers w info true = (tr, Except.ok cs) →
      count < cs.length →
      (∀ c ∈ cs.take (cs.length - count),
        w.kill c.Id "kill" = Except.ok () ∧
        w.remove c.Id true = Except.ok ()) →
      (cs.map (fun c => c.Id)).Nodup →
      (Manager.Scale w container count).2 = Except.ok () ∧
      killedIds (Manager.Scale w container count).1 =
        (cs.take (cs.length - count)).map (fun c => c.Id) ∧
      (cs.filter (fun c =>
        !(((cs.take (cs.length - count)).map (fun c => c.Id)).contains
            c.Id))).length = count) ∧
    (∀ (w : World) (done : List dockerclient.ContainerInfo)
       (c : dockerclient.ContainerInfo)
       (rest : List dockerclient.ContainerInfo) (dtr : List Call)
       (e : String),
      (∀ x ∈ done, w.kill x.Id "kill" = Except.ok () ∧
        w.remove x.Id true = Except.ok ()) →
      Manager.Destroy w c.Id = (dtr, Except.error e) →
      Manager.scaleDownLoop w (done ++ c :: rest) =
        (destroyTrace done ++ dtr, Except.error e)) ∧
    (∀ (w : World) (container info : dockerclient.ContainerInfo)
       (count : Nat) (tr tr2 : List Call)
       (cs : List dockerclient.ContainerInfo) (e : String),
      w.inspect container.Id = Except.ok info →
      Manager.IdenticalContainers w info true = (tr, Except.ok cs) →
      count < cs.length →
      Manager.scaleDownLoop w (cs.take (cs.length - count)) =
        (tr2, Except.error e) →
      Manager.Scale w container count =
        (Call.inspectC container.Id :: tr ++ tr2, Except.error e)) := by
  refine ⟨?_, ?_, ?_⟩
  · intro w container info count tr cs hi hic hlt hdes hnd
    have hsd := scaleDownLoop_ok w (cs.take (cs.length - count)) hdes
    have hscale : Manager.Scale w container count =
        (Call.inspectC container.Id :: tr ++
          destroyTrace (cs.take (cs.length - count)), Except.ok ()) := by
      unfold Manager.Scale
      simp only [hi, hic, if_pos hlt, hsd]
    refine ⟨by rw [hscale], ?_, ?_⟩
    · rw [hscale]
      have h0 := killedIds_identical w info true
      rw [hic] at h0
      have h0t : killedIds tr = [] := h0
      show killedIds ((Call.inspectC container.Id :: tr) ++
        destroyTrace (cs.take (cs.length - count))) = _
      rw [killedIds_append]
      have h1 : killedIds (Call.inspectC container.Id :: tr) =
          killedIds tr := by
        simp [killedIds]
      rw [h1, h0t, killedIds_destroyTrace]
      simp
    · have hf := filter_not_mem_take_map (fun c => c.Id) cs
        (cs.length - count) hnd
      rw [hf, List.length_drop]
      omega
  · exact fun w done c rest dtr e h1 h2 =>
      scaleDownLoop_abort w done c rest dtr e h1 h2
  · intro w container info count tr tr2 cs e hi hic hlt hsp
    unfold Manager.Scale
    simp only [hi, hic, if_pos hlt, hsp]

/-- C7 witness: scaling the three-replica class `"web:1"` down to one
succeeds, kills exactly the first two in listing order, and leaves one class
member. -/
theorem C7_scale_down_first_members_witness :
    (Manager.Scale w7 infoW1 1).2 = Except.ok () ∧
    killedIds (Manager.Scale w7 infoW1 1).1 =
      (([infoW1, infoW2, infoW3].take
        ([infoW1, infoW2, infoW3].length - 1)).map (fun c => c.Id)) ∧
    (([infoW1, infoW2, infoW3] : List dockerclient.ContainerInfo).filter
      (fun c => !((([infoW1, infoW2, infoW3].take
        ([infoW1, infoW2, infoW3].length - 1)).map (fun c => c.Id)).contains
          c.Id))).length = 1 :=
  C7_scale_down_first_members.1 w7 infoW1 infoW1 1
    [Call.listC true, Call.inspectC "w1", Call.inspectC "w2",
      Call.inspectC "w3"]
    [infoW1, infoW2, infoW3] rfl rfl (by decide)
    (fun c _ => ⟨rfl, rfl⟩) (by decide)

/-- C9: when the class is smaller than the desired count, `Scale` invokes the
launcher exactly once, for `count - current` replicas, with `pull = false`
and a template whose hostname has been cleared — regardless of the reference
descriptor's original hostname. -/
theorem C9_scale_up_clears_hostname :
    ∀ (w : World) (container info : dockerclient.ContainerInfo) (count : Nat)
      (tr : List Call) (cs : List dockerclient.ContainerInfo),
      w.inspect container.Id = Except.ok info →
      Manager.IdenticalContainers w info true = (tr, Except.ok cs) →
      cs.length < count →
      (Manager.Scale w container count).1 =
        Call.inspectC container.Id :: tr ++
          [Call.runC { container.Config with Hostname := "" }
            (count - cs.length) false] ∧
      (∀ cfg n p, Call.runC cfg n p ∈ (Manager.Scale w container count).1 →
        cfg.Hostname = "" ∧ n = count - cs.length ∧ p = false) := by
  intro w container info count tr cs hi hic hlt
  have hnlt : ¬ count < cs.length := Nat.not_lt.mpr (Nat.le_of_lt hlt)
  have htr : (Manager.Scale w container count).1 =
      Call.inspectC container.Id :: tr ++
        [Call.runC { container.Config with Hostname := "" }
          (count - cs.length) false] := by
    unfold Manager.Scale
    simp only [hi, hic, if_neg hnlt, if_pos hlt]
    split <;> rfl
  refine ⟨htr, ?_⟩
  intro cfg n p hmem
  rw [htr] at hmem
  simp only [List.mem_cons, List.mem_append, List.mem_nil_iff,
    or_false] at hmem
  rcases hmem with (hmem | hmem) | hmem
  · simp at hmem
  · exfalso
    have hcalls := identical_calls w info true
    rw [hic] at hcalls
    have hcalls2 : ∀ c ∈ tr,
        (isInspect c || c == Call.listC true) = true := hcalls
    have := hcalls2 _ hmem
    simp [isInspect] at this
  · rw [Call.runC.injEq] at hmem
    obtain ⟨h1, h2, h3⟩ := hmem
    subst h1
    subst h2
    subst h3
    exact ⟨rfl, rfl, rfl⟩

/-- C9 witness: scaling the one-replica class up to three launches two
replicas with `pull = false` and an empty hostname, although the reference
descriptor's hostname is `"web-host"`. -/
theorem C9_scale_up_clears_hostname_witness :
    (Manager.Scale w9 infoW1 3).1 =
      Call.inspectC infoW1.Id :: [Call.listC true, Call.inspectC "w1"] ++
        [Call.runC { infoW1.Config with Hostname := "" }
          (3 - [infoW1].length) false] ∧
    ({ infoW1.Config with Hostname := "" } :
      dockerclient.ContainerConfig).Hostname = "" ∧
    infoW1.Config.Hostname = "web-host" :=
  ⟨(C9_scale_up_clears_hostname w9 infoW1 infoW1 3
      [Call.listC true, Call.inspectC "w1"] [infoW1] rfl rfl
      (by decide)).1,
   rfl, rfl⟩

theorem containerLoop_first (w : World) (id : String) :
    ∀ (pre : List dockerclient.Container) (c : dockerclient.Container)
      (post : List dockerclient.Container)
      (info : dockerclient.ContainerInfo),
      (∀ x ∈ pre, strHasPre x.Id id = false) →
      strHasPre c.Id id = true →
      w.inspect c.Id = Except.ok info →
      Manager.containerLoop w id (pre ++ c :: post) =
        ([Call.inspectC c.Id], Except.ok (some info)) := by
  intro pre
  induction pre with
  | nil =>
    intro c post info hpre hc hi
    rw [List.nil_append]
    unfold Manager.containerLoop
    rw [if_pos hc]
    simp only [hi]
  | cons a tl ih =>
    intro c post info hpre hc hi
    rw [List.cons_append]
    unfold Manager.containerLoop
    rw [if_neg (by simp [hpre a (List.mem_cons_self a tl)])]
    exact ih c post info
      (fun x hx => hpre x (List.mem_cons_of_mem a hx)) hc hi

theorem containerLoop_no_match (w : World) (id : String) :
    ∀ cs : List dockerclient.Container,
      (∀ x ∈ cs, strHasPre x.Id id = false) →
      Manager.containerLoop w id cs = ([], Except.ok none) := by
  intro cs
  induction cs with
  | nil => intro h; rfl
  | cons a tl ih =>
    intro h
    unfold Manager.containerLoop
    rw [if_neg (by simp [h a (List.mem_cons_self a tl)])]
    exact ih fun x hx => h x (List.mem_cons_of_mem a hx)

/-- C10: `Container` lists everything (`all = true`) and returns the
inspection of the first listed container whose identifier has the argument
as a prefix; when no identifier has that prefix it returns `(nil, nil)` —
no container and no error. -/
theorem C10_container_first_match_or_none :
    ∀ (w : World) (id : String),
      (∀ (pre : List dockerclient.Container) (c : dockerclient.Container)
         (post : List dockerclient.Container)
         (info : dockerclient.ContainerInfo),
        w.list true = Except.ok (pre ++ c :: post) →
        (∀ x ∈ pre, strHasPre x.Id id = false) →
        strHasPre c.Id id = true →
        w.inspect c.Id = Except.ok info →
        Manager.Container w id =
          ([Call.listC true, Call.inspectC c.Id], Except.ok (some info))) ∧
      (∀ cs : List dockerclient.Container,
        w.list true = Except.ok cs →
        (∀ x ∈ cs, strHasPre x.Id id = false) →
        Manager.Container w id = ([Call.listC true], Except.ok none)) := by
  intro w id
  constructor
  · intro pre c post info hl hpre hc hi
    unfold Manager.Container
    rw [hl]
    simp only [containerLoop_first w id pre c post info hpre hc hi]
  · intro cs hl hnone
    unfold Manager.Container
    rw [hl]
    simp only [containerLoop_no_match w id cs hnone]

/-- C10 witness: with containers `"ab1"`, `"cd2"`, the prefix `"cd"` returns
the inspection of `"cd2"`, and the prefix `"zz"` returns no container and no
error. -/
theorem C10_container_first_match_or_none_witness :
    Manager.Container w10 "cd" =
      ([Call.listC true, Call.inspectC "cd2"], Except.ok (some infoCD)) ∧
    Manager.Container w10 "zz" = ([Call.listC true], Except.ok none) := by
  constructor
  · exact (C10_container_first_match_or_none w10 "cd").1
      [⟨"ab1", "x:1"⟩] ⟨"cd2", "z:1"⟩ [] infoCD rfl (by decide) (by decide)
      rfl
  · exact (C10_container_first_match_or_none w10 "zz").2
      [⟨"ab1", "x:1"⟩, ⟨"cd2", "z:1"⟩] rfl (by decide)
